import Mathlib

/-!
Verification of the MQDB (.ff) container decoder (`FfReader.cpp` / `FfReader.hpp`).

The decoder is embedded shallowly: the underlying file is a `List Nat` of
bytes, stream reads are indexed reads into that list, and the C++ `std::map`
members are modelled as ordered association lists kept sorted by the same key
order `std::map` uses (numeric order for ids/offsets, byte-wise lexicographic
order for strings).  Stream reads past end-of-file follow `std::ifstream`
semantics: the read fails silently and the destination keeps its prior value
(`readUint32` zero-initializes its destination, and freshly constructed
`std::vector<char>` buffers are zero-filled, so missing bytes are modelled
as 0).  In-memory buffer reads (`readUint32(const char*, size_t&)`,
`strlen`, `palette.assign`) perform no bounds check in the C++ source; an
out-of-range access there is undefined behavior, which the embedding marks
with the distinguished outcome `FfError.outOfBounds` (the C++ code throws
nothing at these sites).
-/

set_option maxHeartbeats 1000000
set_option maxRecDepth 8000

deriving instance DecidableEq for Except

/-- Outcomes of decoder operations.  Each constructor except `outOfBounds`
corresponds to one `throw std::runtime_error` site (or a failed file open);
`outOfBounds` marks an unchecked buffer access that is undefined behavior in
the C++ source. -/
inductive FfError where
  | openError
  | badSignature
  | unsupportedVersion
  | missingNameList
  | duplicateId
  | badMqrcSignature
  | outOfBounds
deriving DecidableEq

/-- Byte at index `i` of the file; bytes past end-of-file read as 0
(see the module comment on stream semantics). -/
def byteAt (f : List Nat) (i : Nat) : Nat :=
  f.getD i 0

/-- Little-endian 32-bit value assembled from four bytes, as read by both
`readUint32` overloads on a little-endian machine. -/
def u32At (f : List Nat) (pos : Nat) : Nat :=
  byteAt f pos + 256 * byteAt f (pos + 1) + 65536 * byteAt f (pos + 2)
    + 16777216 * byteAt f (pos + 3)

/-- `file.read(buf, n)`: the available bytes are copied and, per the stream
convention above, the remainder of the destination buffer stays 0. -/
def streamBytes (f : List Nat) (pos n : Nat) : List Nat :=
  let got := (f.drop pos).take n
  got ++ List.replicate (n - got.length) 0

/-- FFSIGNATURE(a, b, c, d): `(d << 24) | (c << 16) | (b << 8) | a`. -/
def ffSignature (a b c d : Nat) : Nat :=
  a + 256 * b + 65536 * c + 16777216 * d

def mqdbFileSignature : Nat := ffSignature 77 81 68 66

def mqdbFileVersion : Nat := 9

def mqrcSignature : Nat := ffSignature 77 81 82 67

/-- "-INDEX.OPT" as bytes. -/
def indexOptRecordName : List Nat := [45, 73, 78, 68, 69, 88, 46, 79, 80, 84]

/-- "-IMAGES.OPT" as bytes. -/
def imagesOptRecordName : List Nat := [45, 73, 77, 65, 71, 69, 83, 46, 79, 80, 84]

def paletteSize : Nat := 11 + 1024

def u32Max : Nat := 4294967295

/-- Header of MQDB (.ff) file, 24 bytes. -/
structure MqdbHeader where
  signature : Nat
  unknown : Nat
  version : Nat
  unknown2 : List Nat
deriving DecidableEq

def readMqdbHeaderAt (f : List Nat) (pos : Nat) : MqdbHeader :=
  ⟨u32At f pos, u32At f (pos + 4), u32At f (pos + 8),
    [u32At f (pos + 12), u32At f (pos + 16), u32At f (pos + 20)]⟩

/-- Table of contents record, 16 bytes. -/
structure TocRecord where
  recordId : Nat
  size : Nat
  sizeAllocated : Nat
  offset : Nat
deriving DecidableEq

def readTocRecordAt (f : List Nat) (pos : Nat) : TocRecord :=
  ⟨u32At f pos, u32At f (pos + 4), u32At f (pos + 8), u32At f (pos + 12)⟩

/-- Header of MQRC record, 28 bytes. -/
structure MqrcHeader where
  signature : Nat
  unknown : Nat
  recordId : Nat
  size : Nat
  sizeAllocated : Nat
  used : Nat
  unknown2 : Nat
deriving DecidableEq

def readMqrcHeaderAt (f : List Nat) (pos : Nat) : MqrcHeader :=
  ⟨u32At f pos, u32At f (pos + 4), u32At f (pos + 8), u32At f (pos + 12),
    u32At f (pos + 16), u32At f (pos + 20), u32At f (pos + 24)⟩

/-- Strict byte-wise lexicographic order on byte strings; this is the
`operator<` that orders `std::map<std::string, _>` (char_traits compares
as unsigned char). -/
def strLt : List Nat → List Nat → Bool
  | [], [] => false
  | [], _ :: _ => true
  | _ :: _, [] => false
  | a :: as, b :: bs => if a < b then true else if b < a then false else strLt as bs

/-- Numeric key order for `std::map` keyed by 32-bit ids/offsets. -/
def natLt (a b : Nat) : Bool := decide (a < b)

/-- `map.find(k)` on an association-list model of `std::map`. -/
def mapFind {K V : Type} [DecidableEq K] (k : K) : List (K × V) → Option V
  | [] => none
  | (k', v) :: rest => if k = k' then some v else mapFind k rest

/-- `map[k] = v` on the ordered association-list model of `std::map`:
the entry is placed at its position in key order (replacing an equal key). -/
def mapInsert {K V : Type} [DecidableEq K] (lt : K → K → Bool) (k : K) (v : V) :
    List (K × V) → List (K × V)
  | [] => [(k, v)]
  | (k', v') :: rest =>
    if lt k k' then (k, v) :: (k', v') :: rest
    else if k = k' then (k, v) :: rest
    else (k', v') :: mapInsert lt k v rest

abbrev TocMap := List (Nat × TocRecord)

abbrev NameMap := List (List Nat × Nat)

/-- ImagePart: six 32-bit fields. -/
structure ImagePart where
  sourceX : Nat
  sourceY : Nat
  targetX : Nat
  targetY : Nat
  width : Nat
  height : Nat
deriving DecidableEq

/-- ImageFrame: parts, name, width, height. -/
structure ImageFrame where
  parts : List ImagePart
  name : List Nat
  width : Nat
  height : Nat
deriving DecidableEq

/-- PackedImage: palette bytes plus frames. -/
structure PackedImage where
  palette : List Nat
  frames : List ImageFrame
deriving DecidableEq

/-- PackedImageInfo: `std::pair<RelativeOffset, PackedImageSize>`. -/
structure PackedImageInfo where
  offset : Nat
  size : Nat
deriving DecidableEq

/-- Entries of '-INDEX.OPT' describing packed images (parallel arrays). -/
structure ImageIndices where
  ids : List Nat
  names : List (List Nat)
  packedInfo : List PackedImageInfo
deriving DecidableEq

/-- Entries of '-INDEX.OPT' describing packed animations (parallel arrays). -/
structure AnimationIndices where
  names : List (List Nat)
  packedInfo : List PackedImageInfo
deriving DecidableEq

/-- Entries of '-INDEX.OPT' MQRC record. -/
structure IndexData where
  images : ImageIndices
  animations : AnimationIndices
deriving DecidableEq

def emptyIndexData : IndexData := ⟨⟨[], [], []⟩, ⟨[], []⟩⟩

/-- The decoder state built by the `FfReader` constructor. -/
structure FfState where
  tableOfContents : TocMap
  recordNames : NameMap
  indexData : IndexData
  packedImages : List (Nat × PackedImage)
deriving DecidableEq

/-- `FfReader::findTocRecord(RecordId)`. -/
def findTocRecord (toc : TocMap) (recordId : Nat) : Option TocRecord :=
  mapFind recordId toc

/-- `FfReader::findTocRecord(const std::string&)`: resolve the name to an id
via `recordNames`, then look the id up in the table of contents. -/
def findTocRecordByName (toc : TocMap) (names : NameMap) (recordName : List Nat) :
    Option TocRecord :=
  match mapFind recordName names with
  | none => none
  | some recordId => findTocRecord toc recordId

/-- `FfReader::checkFileHeader`: read the 24-byte header, reject a wrong
signature, then a wrong version. -/
def checkFileHeader (f : List Nat) : Except FfError Unit :=
  let header := readMqdbHeaderAt f 0
  if header.signature ≠ mqdbFileSignature then .error .badSignature
  else if header.version ≠ mqdbFileVersion then .error .unsupportedVersion
  else .ok ()

/-- The ToC entries as laid out in the file: a 32-bit ToC offset is read at
byte 24 (right after the header), the stream seeks there, reads a 32-bit
entry count and then that many 16-byte records. -/
def tocEntries (f : List Nat) : List TocRecord :=
  let tocOffset := u32At f 24
  let entriesTotal := u32At f tocOffset
  (List.range entriesTotal).map (fun i => readTocRecordAt f (tocOffset + 4 + 16 * i))

/-- The entry loop of `FfReader::readTableOfContents`: for each record, throw
on a duplicate id, otherwise insert it into the id-keyed map. -/
def readTocLoop : List TocRecord → TocMap → Except FfError TocMap
  | [], toc => .ok toc
  | record :: rest, toc =>
    if (mapFind record.recordId toc).isSome then .error .duplicateId
    else readTocLoop rest (mapInsert natLt record.recordId record toc)

/-- `FfReader::readTableOfContents`. -/
def readTableOfContents (f : List Nat) : Except FfError TocMap :=
  readTocLoop (tocEntries f) []

/-- `name[255] = '\0'` on the 256-byte name slot. -/
def setNull255 (slot : List Nat) : List Nat := slot.set 255 0

/-- `std::string` built from a `char*`: the bytes up to the first null. -/
def cstring (slot : List Nat) : List Nat := slot.takeWhile (fun b => decide (b ≠ 0))

/-- The entry loop of `FfReader::readNameList`, with the stream cursor `pos`
made explicit.  Each iteration reads a 256-byte name slot and a 32-bit id at
the cursor; the sub-record-header peek is a read at the ToC entry's offset
(the C++ saves and restores the stream position around it, so it does not
move the cursor). -/
def readNameListLoop (f : List Nat) (toc : TocMap) :
    Nat → Nat → NameMap → Except FfError NameMap
  | _, 0, names => .ok names
  | pos, Nat.succ n, names =>
    let slot := setNull255 (streamBytes f pos 256)
    let recordId := u32At f (pos + 256)
    match mapFind recordId toc with
    | none =>
      -- record id not in the ToC: "this should never happen", skip silently
      readNameListLoop f toc (pos + 260) n names
    | some tocRecord =>
      let recordHeader := readMqrcHeaderAt f tocRecord.offset
      if recordHeader.signature ≠ mqrcSignature then .error .badMqrcSignature
      else if recordHeader.used = 0 then
        -- record is not used, do not store it in the names list
        readNameListLoop f toc (pos + 260) n names
      else
        let nameString := cstring slot
        if (mapFind nameString names).isSome then
          -- do not store duplicate names, first occurrence wins
          readNameListLoop f toc (pos + 260) n names
        else
          readNameListLoop f toc (pos + 260) n (mapInsert strLt nameString recordId names)

/-- `FfReader::readNameList`: require the name-list ToC record (special id 2),
seek past its 28-byte sub-header, read the count and run the entry loop. -/
def readNameList (f : List Nat) (toc : TocMap) : Except FfError NameMap :=
  match mapFind 2 toc with
  | none => .error .missingNameList
  | some namesList =>
    let base := namesList.offset + 28
    let namesTotal := u32At f base
    readNameListLoop f toc (base + 4) namesTotal []

/-- `readUint32(const char* contents, size_t& byteOffset)`: unchecked in the
C++ source, so an out-of-range read is undefined behavior, marked here by
`outOfBounds`. -/
def readBufU32 (contents : List Nat) (off : Nat) : Except FfError (Nat × Nat) :=
  if off + 4 ≤ contents.length then .ok (u32At contents off, off + 4)
  else .error .outOfBounds

/-- Length of the C string starting at the head of the list: index of the
first null byte, or `none` when no null byte exists before the end of the
buffer (in which case the C++ `strlen` runs past the buffer). -/
def strlenFrom : List Nat → Option Nat
  | [] => none
  | b :: rest => if b = 0 then some 0 else (strlenFrom rest).map (· + 1)

/-- Null-terminated name read: `strlen` plus one for the terminator, again
unchecked in the C++ source. -/
def readCString (contents : List Nat) (off : Nat) : Except FfError (List Nat × Nat) :=
  match strlenFrom (contents.drop off) with
  | none => .error .outOfBounds
  | some len => .ok ((contents.drop off).take len, off + len + 1)

/-- The entry loop of `FfReader::readIndex`.  Each decoded entry is
classified by its id, but the C++ source copies the member by value
(`ImageIndices images = indexData.images;` resp.
`AnimationIndices animations = indexData.animations;`), pushes onto the
copy and then discards it, so `indexData` itself is left unchanged. -/
def readIndexLoop (contents : List Nat) : Nat → Nat → IndexData → Except FfError IndexData
  | _, 0, indexData => .ok indexData
  | off, Nat.succ n, indexData =>
    match readBufU32 contents off with
    | .error e => .error e
    | .ok (id, off1) =>
      match readCString contents off1 with
      | .error e => .error e
      | .ok (entryName, off2) =>
        match readBufU32 contents off2 with
        | .error e => .error e
        | .ok (offset, off3) =>
          match readBufU32 contents off3 with
          | .error e => .error e
          | .ok (size, off4) =>
            let indexData' :=
              if id ≠ u32Max then
                let images := indexData.images
                let _pushedOntoDiscardedCopy : ImageIndices :=
                  { images with
                    ids := images.ids ++ [id],
                    names := images.names ++ [entryName],
                    packedInfo := images.packedInfo ++ [⟨offset, size⟩] }
                indexData
              else
                let animations := indexData.animations
                let _pushedOntoDiscardedCopy : AnimationIndices :=
                  { animations with
                    names := animations.names ++ [entryName],
                    packedInfo := animations.packedInfo ++ [⟨offset, size⟩] }
                indexData
            readIndexLoop contents off4 n indexData'

/-- `FfReader::readIndex`: absence of '-INDEX.OPT' is not an error; otherwise
the payload is read into a buffer of the record's declared size and decoded. -/
def readIndex (f : List Nat) (toc : TocMap) (names : NameMap) (indexData : IndexData) :
    Except FfError IndexData :=
  match findTocRecordByName toc names indexOptRecordName with
  | none => .ok indexData
  | some record =>
    let contents := streamBytes f (record.offset + 28) record.size
    match readBufU32 contents 0 with
    | .error e => .error e
    | .ok (total, off) => readIndexLoop contents off total indexData

/-- The part loop of `FfReader::readImages`: six unchecked 32-bit reads per
part, appended in order. -/
def readPartsLoop (contents : List Nat) :
    Nat → Nat → List ImagePart → Except FfError (Nat × List ImagePart)
  | off, 0, parts => .ok (off, parts)
  | off, Nat.succ j, parts =>
    match readBufU32 contents off with
    | .error e => .error e
    | .ok (sourceX, off1) =>
      match readBufU32 contents off1 with
      | .error e => .error e
      | .ok (sourceY, off2) =>
        match readBufU32 contents off2 with
        | .error e => .error e
        | .ok (targetX, off3) =>
          match readBufU32 contents off3 with
          | .error e => .error e
          | .ok (targetY, off4) =>
            match readBufU32 contents off4 with
            | .error e => .error e
            | .ok (partWidth, off5) =>
              match readBufU32 contents off5 with
              | .error e => .error e
              | .ok (partHeight, off6) =>
                readPartsLoop contents off6 j
                  (parts ++ [⟨sourceX, sourceY, targetX, targetY, partWidth, partHeight⟩])

/-- The frame loop of `FfReader::readImages`: per frame a null-terminated
name, three 32-bit fields and the part loop. -/
def readFramesLoop (contents : List Nat) :
    Nat → Nat → List ImageFrame → Except FfError (Nat × List ImageFrame)
  | off, 0, frames => .ok (off, frames)
  | off, Nat.succ i, frames =>
    match readCString contents off with
    | .error e => .error e
    | .ok (frameName, off1) =>
      match readBufU32 contents off1 with
      | .error e => .error e
      | .ok (partsTotal, off2) =>
        match readBufU32 contents off2 with
        | .error e => .error e
        | .ok (frameWidth, off3) =>
          match readBufU32 contents off3 with
          | .error e => .error e
          | .ok (frameHeight, off4) =>
            match readPartsLoop contents off4 partsTotal [] with
            | .error e => .error e
            | .ok (off5, parts) =>
              readFramesLoop contents off5 i
                (frames ++ [⟨parts, frameName, frameWidth, frameHeight⟩])

/-- `packedImage.palette.assign(&p[off], &p[off + paletteSize])`: a pointer
range over the buffer, undefined behavior when it passes the end. -/
def readPalette (contents : List Nat) (off : Nat) : Except FfError (List Nat × Nat) :=
  if off + paletteSize ≤ contents.length
  then .ok ((contents.drop off).take paletteSize, off + paletteSize)
  else .error .outOfBounds

theorem readBufU32_ok {contents : List Nat} {off : Nat} {v off' : Nat}
    (h : readBufU32 contents off = .ok (v, off')) :
    off' = off + 4 ∧ off + 4 ≤ contents.length := by
  unfold readBufU32 at h
  split at h
  · exact ⟨(Prod.mk.injEq .. ▸ Except.ok.injEq .. ▸ h).2.symm ▸ rfl, by assumption⟩
  · exact absurd h (by simp)

theorem readCString_ok {contents : List Nat} {off : Nat} {s : List Nat} {off' : Nat}
    (h : readCString contents off = .ok (s, off')) : off + 1 ≤ off' := by
  unfold readCString at h
  split at h
  · exact absurd h (by simp)
  · simp only [Except.ok.injEq, Prod.mk.injEq] at h
    omega

theorem readPalette_ok {contents : List Nat} {off : Nat} {p : List Nat} {off' : Nat}
    (h : readPalette contents off = .ok (p, off')) : off' = off + paletteSize := by
  unfold readPalette at h
  split at h
  · simp only [Except.ok.injEq, Prod.mk.injEq] at h
    exact h.2.symm
  · exact absurd h (by simp)

theorem readPartsLoop_le (contents : List Nat) :
    ∀ j off parts off' parts',
      readPartsLoop contents off j parts = .ok (off', parts') → off ≤ off' := by
  intro j
  induction j with
  | zero =>
    intro off parts off' parts' h
    simp only [readPartsLoop, Except.ok.injEq, Prod.mk.injEq] at h
    omega
  | succ j ih =>
    intro off parts off' parts' h
    simp only [readPartsLoop] at h
    split at h
    · exact absurd h (by simp)
    next heq1 =>
      split at h
      · exact absurd h (by simp)
      next heq2 =>
        split at h
        · exact absurd h (by simp)
        next heq3 =>
          split at h
          · exact absurd h (by simp)
          next heq4 =>
            split at h
            · exact absurd h (by simp)
            next heq5 =>
              split at h
              · exact absurd h (by simp)
              next heq6 =>
                have h1 := (readBufU32_ok heq1).1
                have h2 := (readBufU32_ok heq2).1
                have h3 := (readBufU32_ok heq3).1
                have h4 := (readBufU32_ok heq4).1
                have h5 := (readBufU32_ok heq5).1
                have h6 := (readBufU32_ok heq6).1
                have := ih _ _ _ _ h
                omega

theorem readFramesLoop_le (contents : List Nat) :
    ∀ i off frames off' frames',
      readFramesLoop contents off i frames = .ok (off', frames') → off ≤ off' := by
  intro i
  induction i with
  | zero =>
    intro off frames off' frames' h
    simp only [readFramesLoop, Except.ok.injEq, Prod.mk.injEq] at h
    omega
  | succ i ih =>
    intro off frames off' frames' h
    simp only [readFramesLoop] at h
    split at h
    · exact absurd h (by simp)
    next heq1 =>
      split at h
      · exact absurd h (by simp)
      next heq2 =>
        split at h
        · exact absurd h (by simp)
        next heq3 =>
          split at h
          · exact absurd h (by simp)
          next heq4 =>
            split at h
            · exact absurd h (by simp)
            next heq5 =>
              have h1 := readCString_ok heq1
              have h2 := (readBufU32_ok heq2).1
              have h3 := (readBufU32_ok heq3).1
              have h4 := (readBufU32_ok heq4).1
              have h5 := readPartsLoop_le contents _ _ _ _ _ heq5
              have := ih _ _ _ _ h
              omega

/-- The `while (byteOffset < recordSize)` loop of `FfReader::readImages`.
Each iteration records the current offset as the packed image's key, copies
the 1035-byte palette, reads the frame count and the frames, and inserts the
image into the offset-keyed map.  Termination: every iteration advances the
offset by at least `paletteSize + 4 = 1039` bytes. -/
def readImagesLoop (contents : List Nat) (recordSize : Nat) (byteOffset : Nat)
    (acc : List (Nat × PackedImage)) : Except FfError (List (Nat × PackedImage)) :=
  if h : byteOffset < recordSize then
    match hp : readPalette contents byteOffset with
    | .error e => .error e
    | .ok (palette, off1) =>
      match hc : readBufU32 contents off1 with
      | .error e => .error e
      | .ok (framesTotal, off2) =>
        match hf : readFramesLoop contents off2 framesTotal [] with
        | .error e => .error e
        | .ok (off3, frames) =>
          readImagesLoop contents recordSize off3
            (mapInsert natLt byteOffset ⟨palette, frames⟩ acc)
  else .ok acc
termination_by recordSize - byteOffset
decreasing_by
  have h1 := readPalette_ok hp
  have h2 := (readBufU32_ok hc).1
  have h3 := readFramesLoop_le contents _ _ _ _ _ hf
  have : paletteSize = 1035 := rfl
  omega

/-- `FfReader::readImages`: absence of '-IMAGES.OPT' is not an error;
otherwise its payload is read into a buffer of the declared size and the
decode loop runs from offset 0. -/
def readImages (f : List Nat) (toc : TocMap) (names : NameMap) :
    Except FfError (List (Nat × PackedImage)) :=
  match findTocRecordByName toc names imagesOptRecordName with
  | none => .ok []
  | some record =>
    let contents := streamBytes f (record.offset + 28) record.size
    readImagesLoop contents record.size 0 []

/-- The `FfReader` constructor: open the file, then run header check, ToC
parse, name-list parse and index parse; the images parse runs only when
`readImageData` is set. -/
def ffReaderConstruct (file : Option (List Nat)) (readImageData : Bool) :
    Except FfError FfState :=
  match file with
  | none => .error .openError
  | some f =>
    match checkFileHeader f with
    | .error e => .error e
    | .ok () =>
      match readTableOfContents f with
      | .error e => .error e
      | .ok tableOfContents =>
        match readNameList f tableOfContents with
        | .error e => .error e
        | .ok recordNames =>
          match readIndex f tableOfContents recordNames emptyIndexData with
          | .error e => .error e
          | .ok indexData =>
            if readImageData then
              match readImages f tableOfContents recordNames with
              | .error e => .error e
              | .ok packedImages =>
                .ok ⟨tableOfContents, recordNames, indexData, packedImages⟩
            else .ok ⟨tableOfContents, recordNames, indexData, []⟩

/-- `FfReader::getRecordData(const TocRecord&, std::vector<char>&)`: reopen
the file (failure to open returns false), seek to `offset + sizeof(MqrcHeader)`,
resize the caller's buffer to the record size (`resize` keeps the prefix and
zero-fills growth) and read that many bytes; the C++ returns true without
checking the read, so a short read leaves the tail of the resized buffer. -/
def getRecordDataRecord (ffFile : Option (List Nat)) (record : TocRecord)
    (data : List Nat) : Bool × List Nat :=
  match ffFile with
  | none => (false, data)
  | some f =>
    let resized := data.take record.size ++ List.replicate (record.size - data.length) 0
    let got := (f.drop (record.offset + 28)).take record.size
    (true, got ++ resized.drop got.length)

/-- `FfReader::getRecordData(RecordId, std::vector<char>&)`: a lookup miss is
a negative result, otherwise delegate to the record-level read. -/
def getRecordDataById (toc : TocMap) (ffFile : Option (List Nat)) (recordId : Nat)
    (data : List Nat) : Bool × List Nat :=
  match findTocRecord toc recordId with
  | none => (false, data)
  | some record => getRecordDataRecord ffFile record data

/-- `FfReader::getRecordData(const std::string&, std::vector<char>&)`. -/
def getRecordDataByName (toc : TocMap) (names : NameMap) (ffFile : Option (List Nat))
    (recordName : List Nat) (data : List Nat) : Bool × List Nat :=
  match findTocRecordByName toc names recordName with
  | none => (false, data)
  | some record => getRecordDataRecord ffFile record data

/-- `FfReader::getNames`: the keys of `recordNames` in the map's iteration
order (which for `std::map<std::string, _>` is ascending key order). -/
def getNames (names : NameMap) : List (List Nat) :=
  names.map (·.1)

/-- The decoded (name, record id) pairs of the name-list payload: `n` entries
of 260 bytes each (a 256-byte name slot and a 32-bit id) starting at `pos`. -/
def nameListEntries (f : List Nat) : Nat → Nat → List (List Nat × Nat)
  | _, 0 => []
  | pos, Nat.succ n =>
    (cstring (setNull255 (streamBytes f pos 256)), u32At f (pos + 256)) ::
      nameListEntries f (pos + 260) n

/-- A name-list entry is retained when its record id resolves in the ToC and
the MQRC header at that record's offset has a nonzero `used` flag. -/
def entryQualifies (f : List Nat) (toc : TocMap) (recordId : Nat) : Bool :=
  match mapFind recordId toc with
  | none => false
  | some tocRecord => decide ((readMqrcHeaderAt f tocRecord.offset).used ≠ 0)

/-- A ToC payload whose two 16-byte entries share record id 7: 24 ignored
header bytes, the ToC offset 28 at byte 24, the entry count 2 at byte 28. -/
def fDup : List Nat :=
  List.replicate 24 0 ++ [28, 0, 0, 0] ++ [2, 0, 0, 0] ++
  [7, 0, 0, 0, 1, 0, 0, 0, 1, 0, 0, 0, 0, 0, 0, 0] ++
  [7, 0, 0, 0, 1, 0, 0, 0, 1, 0, 0, 0, 0, 0, 0, 0]

/-- The same layout with distinct record ids 7 and 9. -/
def fGood : List Nat :=
  List.replicate 24 0 ++ [28, 0, 0, 0] ++ [2, 0, 0, 0] ++
  [7, 0, 0, 0, 1, 0, 0, 0, 1, 0, 0, 0, 0, 0, 0, 0] ++
  [9, 0, 0, 0, 1, 0, 0, 0, 1, 0, 0, 0, 0, 0, 0, 0]

/-- A file whose '-INDEX.OPT' record (id 3, offset 0, size 32) holds two
index entries: an image entry (id 7, name "A", offset 1, size 2) and an
animation entry (id 4294967295, name "B", offset 3, size 4). -/
def fC1 : List Nat :=
  List.replicate 28 0 ++
  [2, 0, 0, 0] ++
  [7, 0, 0, 0] ++ [65, 0] ++ [1, 0, 0, 0] ++ [2, 0, 0, 0] ++
  [255, 255, 255, 255] ++ [66, 0] ++ [3, 0, 0, 0] ++ [4, 0, 0, 0]

def tocC1 : TocMap := [(3, ⟨3, 32, 32, 0⟩)]

def namesC1 : NameMap := [(indexOptRecordName, 3)]

def tocC3 : TocMap := [(7, ⟨7, 4, 4, 0⟩)]

/-- A 1063-byte all-zero file whose '-IMAGES.OPT' record (id 4, offset 0)
declares size 1035: the payload ends right after the palette. -/
def fC2 : List Nat := List.replicate 1063 0

def tocC2 : TocMap := [(4, ⟨4, 1035, 1035, 0⟩)]

def namesC2 : NameMap := [(imagesOptRecordName, 4)]

/-- A name-list payload (name-list record at offset 0, payload at byte 28)
with three entries: "A" mapped to record 7 (in the ToC, used = 1), "B"
mapped to record 9 (absent from the ToC), "C" mapped to record 11 (in the
ToC but used = 0).  MQRC headers for records 7 and 11 sit at 820 and 860. -/
def fC4 : List Nat :=
  List.replicate 28 0 ++
  [3, 0, 0, 0] ++
  ([65] ++ List.replicate 255 0) ++ [7, 0, 0, 0] ++
  ([66] ++ List.replicate 255 0) ++ [9, 0, 0, 0] ++
  ([67] ++ List.replicate 255 0) ++ [11, 0, 0, 0] ++
  List.replicate 8 0 ++
  [77, 81, 82, 67, 0, 0, 0, 0, 7, 0, 0, 0, 0, 0, 0, 0, 0, 0, 0, 0, 1, 0, 0, 0, 0, 0, 0, 0] ++
  List.replicate 12 0 ++
  [77, 81, 82, 67, 0, 0, 0, 0, 11, 0, 0, 0, 0, 0, 0, 0, 0, 0, 0, 0, 0, 0, 0, 0, 0, 0, 0, 0]

def tocC4 : TocMap := [(2, ⟨2, 0, 0, 0⟩), (7, ⟨7, 0, 0, 820⟩), (11, ⟨11, 0, 0, 860⟩)]

def mC4 : NameMap := [([65], 7)]

/-- A name-list payload with two used entries given in descending name
order: "B" mapped to record 7, then "A" mapped to record 11; both records
have used = 1 (MQRC headers at 560 and 600). -/
def fC9 : List Nat :=
  List.replicate 28 0 ++
  [2, 0, 0, 0] ++
  ([66] ++ List.replicate 255 0) ++ [7, 0, 0, 0] ++
  ([65] ++ List.replicate 255 0) ++ [11, 0, 0, 0] ++
  List.replicate 8 0 ++
  [77, 81, 82, 67, 0, 0, 0, 0, 7, 0, 0, 0, 0, 0, 0, 0, 0, 0, 0, 0, 1, 0, 0, 0, 0, 0, 0, 0] ++
  List.replicate 12 0 ++
  [77, 81, 82, 67, 0, 0, 0, 0, 11, 0, 0, 0, 0, 0, 0, 0, 0, 0, 0, 0, 1, 0, 0, 0, 0, 0, 0, 0]

def tocC9 : TocMap := [(2, ⟨2, 0, 0, 0⟩), (7, ⟨7, 0, 0, 560⟩), (11, ⟨11, 0, 0, 600⟩)]

def mC9 : NameMap := [([65], 11), ([66], 7)]

def toc7 : TocMap := [(7, ⟨7, 2, 2, 0⟩)]

def names7 : NameMap := [([65], 7)]

/-- 24 zero bytes: the signature field is 0, not 'MQDB'. -/
def fBadSig : List Nat := List.replicate 24 0

/-- A header with the 'MQDB' signature but version 8 instead of 9. -/
def fBadVer : List Nat :=
  [77, 81, 68, 66] ++ List.replicate 4 0 ++ [8, 0, 0, 0] ++ List.replicate 12 0

/-- Everything of the C6 file before its packed-image bytes: the MQDB
header (version 9), the ToC offset 28, two ToC entries — the name list
(id 2, offset 64) and record 5 ('-IMAGES.OPT', size 1039, offset 356) —
the name-list record (MQRC header, count 1, one 256-byte slot naming
record 5 '-IMAGES.OPT') and record 5's MQRC header. -/
def fileC6pre : List Nat :=
  [77, 81, 68, 66] ++ [0, 0, 0, 0] ++ [9, 0, 0, 0] ++ List.replicate 12 0 ++
  [28, 0, 0, 0] ++
  [2, 0, 0, 0] ++
  [2, 0, 0, 0, 8, 1, 0, 0, 8, 1, 0, 0, 64, 0, 0, 0] ++
  [5, 0, 0, 0, 15, 4, 0, 0, 15, 4, 0, 0, 100, 1, 0, 0] ++
  [77, 81, 82, 67, 0, 0, 0, 0, 2, 0, 0, 0, 8, 1, 0, 0, 8, 1, 0, 0, 1, 0, 0, 0, 0, 0, 0, 0] ++
  [1, 0, 0, 0] ++
  (imagesOptRecordName ++ List.replicate 245 0) ++
  [5, 0, 0, 0] ++
  [77, 81, 82, 67, 0, 0, 0, 0, 5, 0, 0, 0, 15, 4, 0, 0, 15, 4, 0, 0, 1, 0, 0, 0, 0, 0, 0, 0]

/-- A complete well-formed MQDB file: `fileC6pre` followed by record 5's
1039-byte payload (an all-zero palette and a zero frame count). -/
def fileC6 : List Nat := fileC6pre ++ List.replicate 1039 0

def tocC6 : TocMap := [(2, ⟨2, 264, 264, 64⟩), (5, ⟨5, 1039, 1039, 356⟩)]

def namesC6 : NameMap := [(imagesOptRecordName, 5)]

def stC6false : FfState := ⟨tocC6, namesC6, emptyIndexData, []⟩

def stC6true : FfState := ⟨tocC6, namesC6, emptyIndexData, [(0, ⟨List.replicate 1035 0, []⟩)]⟩
theorem byteAt_replicate_zero (n i : Nat) : byteAt (List.replicate n 0) i = 0 := by
  induction n generalizing i with
  | zero => cases i <;> rfl
  | succ n ih => cases i with
    | zero => rfl
    | succ i => exact ih i

theorem u32At_replicate_zero (n pos : Nat) : u32At (List.replicate n 0) pos = 0 := by
  simp [u32At, byteAt_replicate_zero]


theorem readImagesLoop_exit (contents : List Nat) (recordSize byteOffset : Nat)
    (acc : List (Nat × PackedImage)) (h : ¬ byteOffset < recordSize) :
    readImagesLoop contents recordSize byteOffset acc = .ok acc := by
  rw [readImagesLoop]
  simp [h]

theorem readImagesLoop_step (contents : List Nat) (recordSize byteOffset : Nat)
    (acc : List (Nat × PackedImage)) (palette : List Nat) (off1 framesTotal off2 off3 : Nat)
    (frames : List ImageFrame)
    (h : byteOffset < recordSize)
    (hp : readPalette contents byteOffset = .ok (palette, off1))
    (hc : readBufU32 contents off1 = .ok (framesTotal, off2))
    (hf : readFramesLoop contents off2 framesTotal [] = .ok (off3, frames)) :
    readImagesLoop contents recordSize byteOffset acc =
      readImagesLoop contents recordSize off3
        (mapInsert natLt byteOffset ⟨palette, frames⟩ acc) := by
  rw [readImagesLoop, dif_pos h]
  split
  next e heq => rw [hp] at heq; cases heq
  next p o1 heq =>
    rw [hp] at heq
    cases heq
    split
    next e heq2 => rw [hc] at heq2; cases heq2
    next ft o2 heq2 =>
      rw [hc] at heq2
      cases heq2
      split
      next e heq3 => rw [hf] at heq3; cases heq3
      next o3 fr heq3 =>
        rw [hf] at heq3
        cases heq3
        rfl

theorem streamBytes_fileC6 : streamBytes fileC6 384 1039 = List.replicate 1039 0 := by
  have hlen : fileC6pre.length = 384 := by decide
  unfold streamBytes fileC6
  rw [show (384 : Nat) = fileC6pre.length from hlen.symm, List.drop_left]
  simp

theorem readImagesLoop_zeros1039 :
    readImagesLoop (List.replicate 1039 0) 1039 0 [] =
      .ok [(0, ⟨List.replicate 1035 0, []⟩)] := by
  rw [readImagesLoop_step (List.replicate 1039 0) 1039 0 [] (List.replicate 1035 0)
        1035 0 1039 1039 [] (by norm_num)
        (by unfold readPalette; simp [paletteSize, List.take_replicate])
        (by unfold readBufU32; rw [u32At_replicate_zero]; simp)
        (by simp only [readFramesLoop])]
  rw [readImagesLoop_exit]
  · rfl
  · omega

theorem readImages_fileC6 :
    readImages fileC6 tocC6 namesC6 = .ok [(0, ⟨List.replicate 1035 0, []⟩)] := by
  have hfind : findTocRecordByName tocC6 namesC6 imagesOptRecordName =
      some ⟨5, 1039, 1039, 356⟩ := by decide
  unfold readImages
  rw [hfind]
  show readImagesLoop (streamBytes fileC6 384 1039) 1039 0 [] = _
  rw [streamBytes_fileC6, readImagesLoop_zeros1039]

theorem constructC6_false : ffReaderConstruct (some fileC6) false = .ok stC6false := by
  have h1 : checkFileHeader fileC6 = .ok () := by decide
  have h2 : readTableOfContents fileC6 = .ok tocC6 := by decide
  have h3 : readNameList fileC6 tocC6 = .ok namesC6 := by decide
  have h4 : readIndex fileC6 tocC6 namesC6 emptyIndexData = .ok emptyIndexData := by decide
  simp only [ffReaderConstruct, h1, h2, h3, h4]
  rfl

theorem constructC6_true : ffReaderConstruct (some fileC6) true = .ok stC6true := by
  have h1 : checkFileHeader fileC6 = .ok () := by decide
  have h2 : readTableOfContents fileC6 = .ok tocC6 := by decide
  have h3 : readNameList fileC6 tocC6 = .ok namesC6 := by decide
  have h4 : readIndex fileC6 tocC6 namesC6 emptyIndexData = .ok emptyIndexData := by decide
  simp only [ffReaderConstruct, h1, h2, h3, h4, readImages_fileC6, if_true]
  rfl

theorem mapFind_mapInsert {K V : Type} [DecidableEq K] (lt : K → K → Bool)
    (k k' : K) (v : V) (m : List (K × V)) :
    mapFind k' (mapInsert lt k v m) = if k' = k then some v else mapFind k' m := by
  induction m with
  | nil => simp [mapInsert, mapFind]
  | cons hd tl ih =>
    obtain ⟨k0, v0⟩ := hd
    simp only [mapInsert]
    split
    · simp [mapFind]
    · split
      next hlt heq =>
        subst heq
        by_cases h1 : k' = k <;> simp [mapFind, h1]
      next hlt hne =>
        by_cases h1 : k' = k0 <;> by_cases h2 : k' = k <;>
          simp_all [mapFind]

theorem mapInsert_length_le {K V : Type} [DecidableEq K] (lt : K → K → Bool)
    (k : K) (v : V) (m : List (K × V)) :
    (mapInsert lt k v m).length ≤ m.length + 1 := by
  induction m with
  | nil => simp [mapInsert]
  | cons hd tl ih =>
    obtain ⟨k0, v0⟩ := hd
    simp only [mapInsert]
    split
    · simp
    · split
      · simp
      · simpa using Nat.succ_le_succ ih

theorem mapFind_isSome_iff {K V : Type} [DecidableEq K] (k : K) (m : List (K × V)) :
    (mapFind k m).isSome = true ↔ k ∈ m.map (·.1) := by
  induction m with
  | nil => simp [mapFind]
  | cons hd tl ih =>
    obtain ⟨k0, v0⟩ := hd
    by_cases h : k = k0 <;> simp [mapFind, h, ih]


theorem strLt_cons_iff (a b : Nat) (as bs : List Nat) :
    strLt (a :: as) (b :: bs) = true ↔ a < b ∨ (a = b ∧ strLt as bs = true) := by
  simp only [strLt]
  split
  next h => simp [h]
  next h =>
    split
    next h2 =>
      constructor
      · intro h3
        cases h3
      · rintro (h3 | ⟨h3, _⟩) <;> omega
    next h2 =>
      have hab : a = b := by omega
      subst hab
      simp

theorem strLt_false_iff (a b : Nat) (as bs : List Nat) :
    strLt (a :: as) (b :: bs) = false ↔ b < a ∨ (a = b ∧ strLt as bs = false) := by
  rw [← Bool.not_eq_true, strLt_cons_iff]
  constructor
  · intro h
    push_neg at h
    obtain ⟨hba, himp⟩ := h
    rcases Nat.lt_trichotomy a b with h1 | h1 | h1
    · omega
    · subst h1
      exact Or.inr ⟨rfl, by simpa using himp rfl⟩
    · exact Or.inl h1
  · intro h
    rcases h with h | ⟨h1, h2⟩
    · rintro (h2 | ⟨h2, _⟩) <;> omega
    · subst h1
      rintro (h3 | ⟨_, h3⟩)
      · omega
      · rw [h2] at h3
        cases h3

theorem strLt_trans {a : List Nat} : ∀ {b c : List Nat},
    strLt a b = true → strLt b c = true → strLt a c = true := by
  induction a with
  | nil =>
    intro b c h1 h2
    cases b with
    | nil => cases h1
    | cons b0 bs =>
      cases c with
      | nil => cases h2
      | cons c0 cs => rfl
  | cons a0 as ih =>
    intro b c h1 h2
    cases b with
    | nil => cases h1
    | cons b0 bs =>
      cases c with
      | nil => cases h2
      | cons c0 cs =>
        rw [strLt_cons_iff] at h1 h2 ⊢
        rcases h1 with h1 | ⟨h1, h1s⟩ <;> rcases h2 with h2 | ⟨h2, h2s⟩
        · exact Or.inl (by omega)
        · exact Or.inl (by omega)
        · exact Or.inl (by omega)
        · exact Or.inr ⟨by omega, ih h1s h2s⟩

theorem strLt_conn {a : List Nat} : ∀ {b : List Nat},
    strLt a b = false → strLt b a = false → a = b := by
  induction a with
  | nil =>
    intro b h1 h2
    cases b with
    | nil => rfl
    | cons b0 bs => cases h1
  | cons a0 as ih =>
    intro b h1 h2
    cases b with
    | nil => cases h2
    | cons b0 bs =>
      rw [strLt_false_iff] at h1 h2
      rcases h1 with h1 | ⟨h1, h1s⟩ <;> rcases h2 with h2 | ⟨h2, h2s⟩ <;> try omega
      rw [h1, ih h1s h2s]

theorem mapInsert_mem {K V : Type} [DecidableEq K] (lt : K → K → Bool)
    (k : K) (v : V) (m : List (K × V)) :
    ∀ x ∈ mapInsert lt k v m, x = (k, v) ∨ x ∈ m := by
  induction m with
  | nil => simp [mapInsert]
  | cons hd tl ih =>
    obtain ⟨k0, v0⟩ := hd
    simp only [mapInsert]
    split
    · intro x hx
      simpa using hx
    · split
      · intro x hx
        rcases List.mem_cons.mp hx with h | h
        · exact Or.inl h
        · exact Or.inr (List.mem_cons_of_mem _ h)
      · intro x hx
        rcases List.mem_cons.mp hx with h | h
        · exact Or.inr (h ▸ List.mem_cons_self _ _)
        · rcases ih x h with h2 | h2
          · exact Or.inl h2
          · exact Or.inr (List.mem_cons_of_mem _ h2)

theorem mapInsert_sorted {V : Type} (k : List Nat) (v : V) (m : List (List Nat × V))
    (hm : m.Pairwise (fun x y => strLt x.1 y.1 = true)) :
    (mapInsert strLt k v m).Pairwise (fun x y => strLt x.1 y.1 = true) := by
  induction m with
  | nil => simp [mapInsert]
  | cons hd tl ih =>
    obtain ⟨k0, v0⟩ := hd
    rw [List.pairwise_cons] at hm
    obtain ⟨hhd, htl⟩ := hm
    simp only [mapInsert]
    split
    next hlt =>
      rw [List.pairwise_cons]
      refine ⟨?_, List.pairwise_cons.mpr ⟨hhd, htl⟩⟩
      intro y hy
      rcases List.mem_cons.mp hy with h | h
      · rw [h]
        exact hlt
      · exact strLt_trans hlt (hhd y h)
    next hlt =>
      split
      next heq =>
        subst heq
        exact List.pairwise_cons.mpr ⟨hhd, htl⟩
      next hne =>
        rw [List.pairwise_cons]
        refine ⟨?_, ih htl⟩
        intro y hy
        rcases mapInsert_mem strLt k v tl y hy with h | h
        · rw [h]
          rcases h2 : strLt k0 k with _ | _
          · have := strLt_conn (Bool.of_not_eq_true (by simp [hlt])) h2
            exact absurd this hne
          · rfl
        · exact hhd y h

theorem readTocLoop_error_shape :
    ∀ (entries : List TocRecord) (acc : TocMap) (e : FfError),
      readTocLoop entries acc = .error e → e = .duplicateId := by
  intro entries
  induction entries with
  | nil =>
    intro acc e h
    cases h
  | cons r rest ih =>
    intro acc e h
    simp only [readTocLoop] at h
    split at h
    · cases h
      rfl
    · exact ih _ _ h

theorem readTocLoop_ok_nodup :
    ∀ (entries : List TocRecord) (acc toc : TocMap),
      readTocLoop entries acc = .ok toc →
      (entries.map TocRecord.recordId).Nodup ∧
        ∀ r ∈ entries, mapFind r.recordId acc = none := by
  intro entries
  induction entries with
  | nil =>
    intro acc toc _
    simp
  | cons r rest ih =>
    intro acc toc h
    simp only [readTocLoop] at h
    split at h
    · cases h
    next hfresh =>
      obtain ⟨hnodup, hfr⟩ := ih _ _ h
      have hrid : ∀ r' ∈ rest, r'.recordId ≠ r.recordId := by
        intro r' hr' heq
        have := hfr r' hr'
        rw [mapFind_mapInsert] at this
        simp [heq] at this
      constructor
      · simp only [List.map_cons, List.nodup_cons]
        refine ⟨?_, hnodup⟩
        intro hmem
        obtain ⟨r', hr', heq⟩ := List.mem_map.mp hmem
        exact hrid r' hr' heq
      · intro r' hr'
        rcases List.mem_cons.mp hr' with h2 | h2
        · subst h2
          simpa using hfresh
        · have := hfr r' h2
          rw [mapFind_mapInsert] at this
          split at this
          · cases this
          · exact this

theorem readTocLoop_ok_find :
    ∀ (entries : List TocRecord) (acc toc : TocMap),
      readTocLoop entries acc = .ok toc →
      ∀ i, mapFind i toc =
        match entries.find? (fun r => decide (r.recordId = i)) with
        | some r => some r
        | none => mapFind i acc := by
  intro entries
  induction entries with
  | nil =>
    intro acc toc h i
    cases h
    rfl
  | cons r rest ih =>
    intro acc toc h i
    simp only [readTocLoop] at h
    split at h
    · cases h
    next hfresh =>
      have hchar := ih _ _ h i
      have hrest := (readTocLoop_ok_nodup _ _ _ h).2
      by_cases hi : r.recordId = i
      · subst hi
        have hnone : rest.find? (fun r' => decide (r'.recordId = r.recordId)) = none := by
          rw [List.find?_eq_none]
          intro r' hr'
          simp only [decide_eq_true_eq]
          intro heq
          have := hrest r' hr'
          rw [mapFind_mapInsert] at this
          simp [heq] at this
        have hfindcons : (r :: rest).find? (fun r' => decide (r'.recordId = r.recordId)) =
            some r := List.find?_cons_of_pos _ (by simp)
        simp only [hfindcons]
        rw [hchar]
        simp only [hnone]
        rw [mapFind_mapInsert]
        simp
      · have hfindcons : (r :: rest).find? (fun r' => decide (r'.recordId = i)) =
            rest.find? (fun r' => decide (r'.recordId = i)) :=
          List.find?_cons_of_neg _ (by simp [hi])
        simp only [hfindcons]
        rw [hchar]
        cases hfind : rest.find? (fun r' => decide (r'.recordId = i)) with
        | some r2 => simp [hfind]
        | none =>
          simp only [hfind]
          rw [mapFind_mapInsert, if_neg (fun h => hi h.symm)]

theorem readNameListLoop_find (f : List Nat) (toc : TocMap) :
    ∀ (n pos : Nat) (acc m : NameMap),
      readNameListLoop f toc pos n acc = .ok m →
      ∀ name, mapFind name m =
        match mapFind name acc with
        | some i => some i
        | none =>
          (((nameListEntries f pos n).filter (fun e => entryQualifies f toc e.2)).find?
              (fun e => decide (e.1 = name))).map (·.2) := by
  intro n
  induction n with
  | zero =>
    intro pos acc m h name
    cases h
    simp only [nameListEntries, List.filter_nil, List.find?_nil, Option.map_none']
    cases hacc : mapFind name acc <;> rfl
  | succ n ih =>
    intro pos acc m h name
    simp only [readNameListLoop] at h
    simp only [nameListEntries]
    split at h
    next hid =>
      have hq : entryQualifies f toc (u32At f (pos + 256)) = false := by
        simp [entryQualifies, hid]
      rw [List.filter_cons_of_neg (by simp [hq])]
      exact ih _ _ _ h name
    next tocRecord hid =>
      split at h
      next hsig => exact absurd h (by simp)
      next hsig =>
        split at h
        next hused =>
          have hq : entryQualifies f toc (u32At f (pos + 256)) = false := by
            simp [entryQualifies, hid, hused]
          rw [List.filter_cons_of_neg (by simp [hq])]
          exact ih _ _ _ h name
        next hused =>
          have hq : entryQualifies f toc (u32At f (pos + 256)) = true := by
            simp only [entryQualifies, hid]
            simp [hused]
          rw [List.filter_cons_of_pos (by simp [hq])]
          split at h
          next hdup =>
            rw [ih _ _ _ h name]
            cases hacc : mapFind name acc with
            | some i => rfl
            | none =>
              have hne : ¬ (cstring (setNull255 (streamBytes f pos 256)) = name) := by
                intro heq
                rw [heq, hacc] at hdup
                simp at hdup
              rw [List.find?_cons_of_neg _ (by simp [hne])]
          next hdup =>
            rw [ih _ _ _ h name]
            rw [mapFind_mapInsert]
            by_cases hname : name = cstring (setNull255 (streamBytes f pos 256))
            · rw [if_pos hname]
              cases hacc : mapFind name acc with
              | some i =>
                rw [hname] at hacc
                rw [hacc] at hdup
                simp at hdup
              | none =>
                rw [List.find?_cons_of_pos _ (by simp [hname.symm])]
                rfl
            · rw [if_neg hname]
              cases hacc : mapFind name acc with
              | some i => rfl
              | none =>
                rw [List.find?_cons_of_neg _ (by simp; exact fun h2 => hname h2.symm)]

theorem readNameListLoop_sorted (f : List Nat) (toc : TocMap) :
    ∀ (n pos : Nat) (acc m : NameMap),
      acc.Pairwise (fun x y => strLt x.1 y.1 = true) →
      readNameListLoop f toc pos n acc = .ok m →
      m.Pairwise (fun x y => strLt x.1 y.1 = true) := by
  intro n
  induction n with
  | zero =>
    intro pos acc m hacc h
    cases h
    exact hacc
  | succ n ih =>
    intro pos acc m hacc h
    simp only [readNameListLoop] at h
    split at h
    next => exact ih _ _ _ hacc h
    next tocRecord hid =>
      split at h
      next => exact absurd h (by simp)
      next =>
        split at h
        next => exact ih _ _ _ hacc h
        next =>
          split at h
          next => exact ih _ _ _ hacc h
          next => exact ih _ _ _ (mapInsert_sorted _ _ _ hacc) h

theorem readIndexLoop_unchanged (contents : List Nat) :
    ∀ (n off : Nat) (indexData result : IndexData),
      readIndexLoop contents off n indexData = .ok result → result = indexData := by
  intro n
  induction n with
  | zero =>
    intro off indexData result h
    cases h
    rfl
  | succ n ih =>
    intro off indexData result h
    simp only [readIndexLoop] at h
    split at h
    · exact absurd h (by simp)
    next heq1 =>
      split at h
      · exact absurd h (by simp)
      next heq2 =>
        split at h
        · exact absurd h (by simp)
        next heq3 =>
          split at h
          · exact absurd h (by simp)
          next heq4 =>
            split at h <;> exact ih _ _ _ h

theorem readImagesLoop_count (contents : List Nat) (recordSize : Nat) :
    ∀ (fuel byteOffset : Nat) (acc m : List (Nat × PackedImage)),
      recordSize - byteOffset ≤ fuel →
      readImagesLoop contents recordSize byteOffset acc = .ok m →
      m.length ≤ acc.length + (recordSize - byteOffset + 1038) / 1039 := by
  intro fuel
  induction fuel with
  | zero =>
    intro byteOffset acc m hfuel h
    rw [readImagesLoop_exit contents recordSize byteOffset acc (by omega)] at h
    cases h
    omega
  | succ fuel ih =>
    intro byteOffset acc m hfuel h
    by_cases hlt : byteOffset < recordSize
    · rw [readImagesLoop] at h
      rw [dif_pos hlt] at h
      split at h
      · exact absurd h (by simp)
      next palette off1 hp =>
        split at h
        · exact absurd h (by simp)
        next framesTotal off2 hc =>
          split at h
          · exact absurd h (by simp)
          next off3 frames hf =>
            have h1 : off1 = byteOffset + paletteSize := readPalette_ok hp
            have h2 : off2 = off1 + 4 := (readBufU32_ok hc).1
            have h3 : off2 ≤ off3 := readFramesLoop_le contents _ _ _ _ _ hf
            have hps : paletteSize = 1035 := rfl
            have hlen := mapInsert_length_le natLt byteOffset
              (⟨palette, frames⟩ : PackedImage) acc
            have := ih off3 _ _ (by omega) h
            have hdiv : (recordSize - off3 + 1038) / 1039 + 1 ≤
                (recordSize - byteOffset + 1038) / 1039 := by omega
            omega
    · rw [readImagesLoop_exit contents recordSize byteOffset acc hlt] at h
      cases h
      omega

theorem tocEntries_mem_find (entries : List TocRecord) (r : TocRecord)
    (hnodup : (entries.map TocRecord.recordId).Nodup) (hr : r ∈ entries) :
    entries.find? (fun x => decide (x.recordId = r.recordId)) = some r := by
  induction entries with
  | nil => cases hr
  | cons a tl ih =>
    rcases List.mem_cons.mp hr with h | h
    · subst h
      exact List.find?_cons_of_pos _ (by simp)
    · simp only [List.map_cons, List.nodup_cons] at hnodup
      have hne : a.recordId ≠ r.recordId := by
        intro heq
        rw [heq] at hnodup
        exact hnodup.1 (List.mem_map_of_mem _ h)
      rw [List.find?_cons_of_neg _ (by simp [hne])]
      exact ih hnodup.2 h

/-- Claim C5: a ToC with two entries sharing a record id makes
`readTableOfContents` (and construction) fail with `duplicateId`; on success
every decoded entry is present in the id map under its own unique id, none
skipped. -/
theorem c5_toc_duplicate_ids (f : List Nat) :
    (¬ ((tocEntries f).map TocRecord.recordId).Nodup →
        readTableOfContents f = .error .duplicateId) ∧
    (∀ toc, readTableOfContents f = .ok toc →
        ((tocEntries f).map TocRecord.recordId).Nodup ∧
        (∀ r ∈ tocEntries f, mapFind r.recordId toc = some r) ∧
        (∀ i v, mapFind i toc = some v → v ∈ tocEntries f)) ∧
    (∀ b : Bool, checkFileHeader f = .ok () →
        ¬ ((tocEntries f).map TocRecord.recordId).Nodup →
        ffReaderConstruct (some f) b = .error .duplicateId) := by
  have herr : ¬ ((tocEntries f).map TocRecord.recordId).Nodup →
      readTableOfContents f = .error .duplicateId := by
    intro hdup
    unfold readTableOfContents
    cases hres : readTocLoop (tocEntries f) [] with
    | ok toc => exact absurd (readTocLoop_ok_nodup _ _ _ hres).1 hdup
    | error e => exact congrArg Except.error (readTocLoop_error_shape _ _ _ hres)
  refine ⟨herr, ?_, ?_⟩
  · intro toc htoc
    unfold readTableOfContents at htoc
    have hnodup := (readTocLoop_ok_nodup _ _ _ htoc).1
    refine ⟨hnodup, ?_, ?_⟩
    · intro r hr
      have hchar := readTocLoop_ok_find _ _ _ htoc r.recordId
      rw [hchar, tocEntries_mem_find _ r hnodup hr]
    · intro i v hfind
      have hchar := readTocLoop_ok_find _ _ _ htoc i
      rw [hchar] at hfind
      cases hfound : (tocEntries f).find? (fun x => decide (x.recordId = i)) with
      | some r =>
        simp only [hfound] at hfind
        cases hfind
        exact List.mem_of_find?_eq_some hfound
      | none =>
        simp only [hfound] at hfind
        simp [mapFind] at hfind
  · intro b hchk hdup
    simp only [ffReaderConstruct, hchk, herr hdup]

theorem c5_toc_duplicate_ids_witness :
    readTableOfContents fDup = .error .duplicateId ∧
    readTableOfContents fGood = .ok [(7, ⟨7, 1, 1, 0⟩), (9, ⟨9, 1, 1, 0⟩)] ∧
    mapFind 9 [(7, (⟨7, 1, 1, 0⟩ : TocRecord)), (9, ⟨9, 1, 1, 0⟩)] = some ⟨9, 1, 1, 0⟩ := by
  refine ⟨(c5_toc_duplicate_ids fDup).1 (by decide), by decide, ?_⟩
  have h := ((c5_toc_duplicate_ids fGood).2.1 [(7, ⟨7, 1, 1, 0⟩), (9, ⟨9, 1, 1, 0⟩)]
    (by decide)).2.1 ⟨9, 1, 1, 0⟩ (by decide)
  exact h

/-- Claim C8: a wrong signature in the first 24 bytes fails construction with
`badSignature`; a correct signature with version different from 9 fails with
`unsupportedVersion`. -/
theorem c8_header_validation (f : List Nat) (b : Bool) :
    ((readMqdbHeaderAt f 0).signature ≠ mqdbFileSignature →
        ffReaderConstruct (some f) b = .error .badSignature) ∧
    ((readMqdbHeaderAt f 0).signature = mqdbFileSignature →
        (readMqdbHeaderAt f 0).version ≠ mqdbFileVersion →
        ffReaderConstruct (some f) b = .error .unsupportedVersion) := by
  constructor
  · intro hsig
    have hchk : checkFileHeader f = .error .badSignature := by
      simp only [checkFileHeader]
      rw [if_pos hsig]
    simp only [ffReaderConstruct, hchk]
  · intro hsig hver
    have hchk : checkFileHeader f = .error .unsupportedVersion := by
      simp only [checkFileHeader]
      rw [if_neg (by simp [hsig]), if_pos hver]
    simp only [ffReaderConstruct, hchk]

theorem c8_header_validation_witness :
    ffReaderConstruct (some fBadSig) true = .error .badSignature ∧
    ffReaderConstruct (some fBadVer) true = .error .unsupportedVersion :=
  ⟨(c8_header_validation fBadSig true).1 (by decide),
   (c8_header_validation fBadVer true).2 (by decide) (by decide)⟩

/-- Claim C7: when a name resolves to a record id in `recordNames`, fetching
record data by that name is the same read as fetching by the id. -/
theorem c7_name_id_roundtrip (toc : TocMap) (names : NameMap) (file : Option (List Nat))
    (name : List Nat) (recordId : Nat) (d : List Nat)
    (h1 : mapFind name names = some recordId) (h2 : (mapFind recordId toc).isSome = true) :
    getRecordDataByName toc names file name d = getRecordDataById toc file recordId d := by
  unfold getRecordDataByName getRecordDataById findTocRecordByName
  simp only [h1]

theorem c7_name_id_roundtrip_witness :
    getRecordDataByName toc7 names7 (some (List.replicate 32 1)) [65] [] =
      getRecordDataById toc7 (some (List.replicate 32 1)) 7 [] :=
  c7_name_id_roundtrip toc7 names7 (some (List.replicate 32 1)) [65] 7 []
    (by decide) (by decide)

/-- Claim C9: the names returned by `getNames` are strictly ascending in the
byte-wise lexicographic order (hence each name appears exactly once) and are
exactly the keys of the name table, whatever order the name list gave them. -/
theorem c9_getNames_sorted (f : List Nat) (toc : TocMap) (m : NameMap)
    (h : readNameList f toc = .ok m) :
    (getNames m).Pairwise (fun a b => strLt a b = true) ∧
    (∀ name, name ∈ getNames m ↔ (mapFind name m).isSome = true) := by
  have hsorted : m.Pairwise (fun x y => strLt x.1 y.1 = true) := by
    unfold readNameList at h
    split at h
    · exact absurd h (by simp)
    next nl heq => exact readNameListLoop_sorted f toc _ _ _ _ List.Pairwise.nil h
  constructor
  · unfold getNames
    exact List.pairwise_map.mpr hsorted
  · intro name
    rw [mapFind_isSome_iff]
    exact Iff.rfl

theorem c9_getNames_sorted_witness :
    (getNames mC9).Pairwise (fun a b => strLt a b = true) ∧
    (∀ name, name ∈ getNames mC9 ↔ (mapFind name mC9).isSome = true) :=
  c9_getNames_sorted fC9 tocC9 mC9 (by decide)

/-- Claim C10: one iteration of the readImages decode loop — palette copy,
frame-count read, frames — moves the byte offset forward by at least
paletteSize + 4 = 1039 bytes, and consequently a successful run of the loop
performs at most one iteration per 1039 bytes of remaining payload, which is
why the loop condition fails after finitely many iterations on every finite
payload. -/
theorem c10_readImages_iteration_bound :
    (∀ (contents palette : List Nat) (byteOffset off1 framesTotal off2 off3 : Nat)
        (frames : List ImageFrame),
        readPalette contents byteOffset = .ok (palette, off1) →
        readBufU32 contents off1 = .ok (framesTotal, off2) →
        readFramesLoop contents off2 framesTotal [] = .ok (off3, frames) →
        byteOffset + 1039 ≤ off3) ∧
    (∀ (contents : List Nat) (recordSize byteOffset : Nat)
        (acc m : List (Nat × PackedImage)),
        readImagesLoop contents recordSize byteOffset acc = .ok m →
        m.length ≤ acc.length + (recordSize - byteOffset + 1038) / 1039) := by
  constructor
  · intro contents palette byteOffset off1 framesTotal off2 off3 frames hp hc hf
    have h1 : off1 = byteOffset + paletteSize := readPalette_ok hp
    have h2 : off2 = off1 + 4 := (readBufU32_ok hc).1
    have h3 : off2 ≤ off3 := readFramesLoop_le contents _ _ _ _ _ hf
    have hps : paletteSize = 1035 := rfl
    omega
  · intro contents recordSize byteOffset acc m h
    exact readImagesLoop_count contents recordSize (recordSize - byteOffset) byteOffset
      acc m (Nat.le_refl _) h

theorem c10_iteration_bound_witness :
    ([(0, (⟨List.replicate 1035 0, []⟩ : PackedImage))] : List (Nat × PackedImage)).length ≤
      ([] : List (Nat × PackedImage)).length + (1039 - 0 + 1038) / 1039 :=
  c10_readImages_iteration_bound.2 (List.replicate 1039 0) 1039 0 [] _
    readImagesLoop_zeros1039

/-- Claim C1: the index entries decoded from '-INDEX.OPT' are never stored:
the C++ pushes onto value copies of `indexData.images` and
`indexData.animations` and discards them, so after `readIndex` the index
arrays are exactly what they were before — here empty — although the
concrete payload holds one image entry (id 7) and one animation entry
(sentinel id). -/
theorem c1_index_entries_never_stored :
    readIndex fC1 tocC1 namesC1 emptyIndexData = .ok emptyIndexData ∧
    (∀ (contents : List Nat) (n off : Nat) (indexData result : IndexData),
        readIndexLoop contents off n indexData = .ok result → result = indexData) :=
  ⟨by decide, fun contents n off indexData result h =>
    readIndexLoop_unchanged contents n off indexData result h⟩

theorem readImagesLoop_truncated1035 :
    readImagesLoop (List.replicate 1035 0) 1035 0 [] = .error .outOfBounds := by
  rw [readImagesLoop, dif_pos (by norm_num)]
  have hp : readPalette (List.replicate 1035 0) 0 = .ok (List.replicate 1035 0, 1035) := by
    unfold readPalette
    simp [paletteSize, List.take_replicate]
  have hc : readBufU32 (List.replicate 1035 0) 1035 = .error .outOfBounds := by
    unfold readBufU32
    simp
  split
  next e heq => rw [hp] at heq; cases heq
  next palette off1 heq =>
    rw [hp] at heq
    cases heq
    split
    next e heq2 =>
      rw [hc] at heq2
      cases heq2
      rfl
    next ft off2 heq2 =>
      rw [hc] at heq2
      cases heq2

/-- Claim C2: an '-IMAGES.OPT' record whose declared size 1035 truncates the
payload right after the palette drives the unchecked frame-count read past
the end of the contents buffer: the decode is stuck on an out-of-bounds
access (undefined behavior in the C++), not a thrown format error — the
code has no bounds checks and no TruncatedPayload-style throw site. -/
theorem c2_truncated_images_out_of_bounds :
    readImages fC2 tocC2 namesC2 = .error .outOfBounds ∧
    readImagesLoop (List.replicate 1035 0) 1035 0 [] = .error .outOfBounds := by
  refine ⟨?_, readImagesLoop_truncated1035⟩
  have hfind : findTocRecordByName tocC2 namesC2 imagesOptRecordName =
      some ⟨4, 1035, 1035, 0⟩ := by decide
  have hstream : streamBytes fC2 (0 + 28) 1035 = List.replicate 1035 0 := by
    unfold streamBytes fC2
    simp [List.drop_replicate, List.take_replicate]
  simp only [readImages, hfind]
  rw [hstream, readImagesLoop_truncated1035]

/-- Counterexample to claim C3: record 7 resolves in the ToC and the file
opens, but the file is empty, so the 4-byte read at offset 28 cannot
succeed; the call still returns true, handing back the zero-filled buffer
that `resize` produced rather than a failing result. -/
theorem c3_read_failure_reported_as_success :
    getRecordDataById tocC3 (some []) 7 [] = (true, [0, 0, 0, 0]) := by decide

/-- Claim C3 as amended: lookup misses (by id or by name) and an open
failure return false with the buffer untouched; once the record resolves
and the file opens the call returns true unconditionally, and when the file
actually holds the bytes, exactly `record.size` bytes from
`record.offset + 28` are returned. -/
theorem c3_record_access (toc : TocMap) (names : NameMap) (recordId : Nat) (d : List Nat) :
    (∀ file, findTocRecord toc recordId = none →
        getRecordDataById toc file recordId d = (false, d)) ∧
    (∀ file name, findTocRecordByName toc names name = none →
        getRecordDataByName toc names file name d = (false, d)) ∧
    (∀ record, findTocRecord toc recordId = some record →
        getRecordDataById toc none recordId d = (false, d)) ∧
    (∀ record f, findTocRecord toc recordId = some record →
        (getRecordDataById toc (some f) recordId d).1 = true) ∧
    (∀ record f, findTocRecord toc recordId = some record →
        record.offset + 28 + record.size ≤ f.length →
        getRecordDataById toc (some f) recordId d =
          (true, (f.drop (record.offset + 28)).take record.size)) := by
  refine ⟨?_, ?_, ?_, ?_, ?_⟩
  · intro file hfind
    simp only [getRecordDataById, hfind]
  · intro file name hfind
    simp only [getRecordDataByName, hfind]
  · intro record hfind
    simp only [getRecordDataById, hfind, getRecordDataRecord]
  · intro record f hfind
    simp only [getRecordDataById, hfind, getRecordDataRecord]
  · intro record f hfind hlen
    have hgot : ((f.drop (record.offset + 28)).take record.size).length = record.size := by
      simp only [List.length_take, List.length_drop]
      omega
    have hres : (d.take record.size ++
        List.replicate (record.size - d.length) 0).length = record.size := by
      simp only [List.length_append, List.length_take, List.length_replicate]
      omega
    simp only [getRecordDataById, hfind, getRecordDataRecord]
    rw [hgot, List.drop_eq_nil_of_le (Nat.le_of_eq hres), List.append_nil]

theorem c3_record_access_witness :
    getRecordDataById tocC3 (some (List.replicate 32 5)) 7 [] = (true, [5, 5, 5, 5]) ∧
    getRecordDataById tocC3 (some (List.replicate 32 5)) 9 [] = (false, []) := by
  constructor
  · have h := (c3_record_access tocC3 [] 7 []).2.2.2.2 ⟨7, 4, 4, 0⟩ (List.replicate 32 5)
      (by decide) (by decide)
    rw [h]
    decide
  · exact (c3_record_access tocC3 [] 9 []).1 (some (List.replicate 32 5)) (by decide)

/-- Claim C4: after a successful `readNameList`, the lookup table is exactly
the first-occurrence-wins selection of the qualifying name-list entries —
those whose record id is in the ToC and whose MQRC header has used not 0 —
in payload order. -/
theorem c4_name_table (f : List Nat) (toc : TocMap) (m : NameMap) (nl : TocRecord)
    (hnl : mapFind 2 toc = some nl) (h : readNameList f toc = .ok m) :
    ∀ name, mapFind name m =
      (((nameListEntries f (nl.offset + 28 + 4) (u32At f (nl.offset + 28))).filter
          (fun e => entryQualifies f toc e.2)).find?
        (fun e => decide (e.1 = name))).map (·.2) := by
  intro name
  unfold readNameList at h
  split at h
  next heq => rw [hnl] at heq; cases heq
  next nl2 heq =>
    rw [hnl] at heq
    cases heq
    have hchar := readNameListLoop_find f toc _ _ _ _ h name
    rw [hchar]
    simp [mapFind]

theorem c4_name_table_witness :
    mapFind [65] mC4 = some 7 ∧ mapFind [66] mC4 = none ∧ mapFind [67] mC4 = none := by
  have hA := c4_name_table fC4 tocC4 mC4 ⟨2, 0, 0, 0⟩ (by decide) (by decide) [65]
  have hB := c4_name_table fC4 tocC4 mC4 ⟨2, 0, 0, 0⟩ (by decide) (by decide) [66]
  have hC := c4_name_table fC4 tocC4 mC4 ⟨2, 0, 0, 0⟩ (by decide) (by decide) [67]
  refine ⟨?_, ?_, ?_⟩
  · rw [hA]; decide
  · rw [hB]; decide
  · rw [hC]; decide

/-- Counterexample to claim C6: the same well-formed file constructed with
`readImageData = false` succeeds with an empty packed-image table although
its '-IMAGES.OPT' record decodes to one packed image (as the construction
with the flag set shows): the images stage of §4.5 was not performed. -/
theorem c6_images_stage_skipped :
    (ffReaderConstruct (some fileC6) false).map FfState.packedImages = .ok [] ∧
    (ffReaderConstruct (some fileC6) true).map FfState.packedImages =
      .ok [(0, ⟨List.replicate 1035 0, []⟩)] := by
  constructor
  · rw [constructC6_false]; rfl
  · rw [constructC6_true]; rfl

/-- Claim C6 as amended: a successful construction always performed header
check, ToC parse, name-list parse and index parse, in that order, with the
state holding their results; the images stage is performed exactly when the
`readImageData` flag is set, otherwise the packed-image table is left empty. -/
theorem c6_construction_stages (f : List Nat) (b : Bool) (st : FfState)
    (h : ffReaderConstruct (some f) b = .ok st) :
    checkFileHeader f = .ok () ∧
    readTableOfContents f = .ok st.tableOfContents ∧
    readNameList f st.tableOfContents = .ok st.recordNames ∧
    readIndex f st.tableOfContents st.recordNames emptyIndexData = .ok st.indexData ∧
    (b = true → readImages f st.tableOfContents st.recordNames = .ok st.packedImages) ∧
    (b = false → st.packedImages = []) := by
  simp only [ffReaderConstruct] at h
  split at h
  next heq1 => exact absurd h (by simp)
  next heq1 =>
    split at h
    next heq2 => exact absurd h (by simp)
    next toc heq2 =>
      split at h
      next heq3 => exact absurd h (by simp)
      next names heq3 =>
        split at h
        next heq4 => exact absurd h (by simp)
        next idx heq4 =>
          cases b with
          | true =>
            rw [if_pos rfl] at h
            split at h
            next heq5 => exact absurd h (by simp)
            next imgs heq5 =>
              cases h
              exact ⟨heq1, heq2, heq3, heq4, fun _ => heq5,
                fun h2 => absurd h2 (by simp)⟩
          | false =>
            rw [if_neg (by simp)] at h
            cases h
            exact ⟨heq1, heq2, heq3, heq4, fun h2 => absurd h2 (by simp),
              fun _ => rfl⟩

theorem c6_construction_stages_witness :
    checkFileHeader fileC6 = .ok () ∧
    readTableOfContents fileC6 = .ok stC6true.tableOfContents ∧
    readNameList fileC6 stC6true.tableOfContents = .ok stC6true.recordNames ∧
    readIndex fileC6 stC6true.tableOfContents stC6true.recordNames emptyIndexData =
      .ok stC6true.indexData ∧
    (true = true → readImages fileC6 stC6true.tableOfContents stC6true.recordNames =
      .ok stC6true.packedImages) ∧
    (true = false → stC6true.packedImages = []) :=
  c6_construction_stages fileC6 true stC6true constructC6_true
